import Mathlib

/-!
Verification of the SilkyNet counting core (`api/inference.py`).

The embedding covers `count_contours`, `_separate_overlapped`,
`_calculate_confidence` and `preprocess_image`.  A contour is represented
by its area (the value `cv2.contourArea` returns, a nonnegative float);
contour extraction itself is an external OpenCV call and is modelled by its
result, the list of contour areas.  The external image operations inside
`_separate_overlapped` (rasterization, distance transform, peak finding,
marker labelling, watershed, region counting) are modelled by a record of
their observable outcomes, each of which may raise.  Python float
arithmetic is modelled exactly over `ℚ`.
-/

set_option allowUnsafeReducibility true in
attribute [semireducible] Rat.mul Rat.add Rat.sub Rat.inv Rat.div Rat.ofScientific

namespace SilkyNet

/-- The explicit classification tags assigned by the loop in
`count_contours`.  Contours in the band `[0.5·median, median]` receive no
tag. -/
inductive Tag where
  | Artifact
  | Partial
  | Overlapped
  deriving DecidableEq, Repr

/-- The classification chain applied to one contour area: the `if`/`elif`
chain of `count_contours` (`inference.py` lines 128-140), with the Python
chained comparison `0.2*m <= area < 0.5*m` as a conjunction. -/
def classifyArea (median_area area : ℚ) : Option Tag :=
  if area < 0.2 * median_area then some Tag.Artifact
  else if 0.2 * median_area ≤ area ∧ area < 0.5 * median_area then some Tag.Partial
  else if area > 1.0 * median_area then some Tag.Overlapped
  else none

/-- The three loop accumulators of `count_contours`: `artifacts`,
`partial` (here `partial_cnt`) and `overlapped`. -/
structure Counts where
  artifacts : ℕ
  partial_cnt : ℕ
  overlapped : ℕ
  deriving DecidableEq, Repr

/-- The classification loop of `count_contours`, folded over the contour
areas. -/
def classCounts (median_area : ℚ) : List ℚ → Counts
  | [] => ⟨0, 0, 0⟩
  | a :: rest =>
    let r := classCounts median_area rest
    match classifyArea median_area a with
    | some Tag.Artifact => ⟨r.artifacts + 1, r.partial_cnt, r.overlapped⟩
    | some Tag.Partial => ⟨r.artifacts, r.partial_cnt + 1, r.overlapped⟩
    | some Tag.Overlapped => ⟨r.artifacts, r.partial_cnt, r.overlapped + 1⟩
    | none => r

/-- Ascending sort of the contour areas (`np.median` sorts its input). -/
def sortAreas (l : List ℚ) : List ℚ := l.insertionSort (· ≤ ·)

/-- `np.median` over the contour areas: the middle element of the sorted
list when the length is odd, the mean of the two middle elements when it is
even.  `count_contours` never consults it on an empty list. -/
def median (l : List ℚ) : ℚ :=
  if l.length % 2 = 1 then (sortAreas l).getD (l.length / 2) 0
  else ((sortAreas l).getD (l.length / 2 - 1) 0 + (sortAreas l).getD (l.length / 2) 0) / 2

/-- One run of the external image operations inside `_separate_overlapped`
(`inference.py` lines 183-201), abstracted by their observable outcomes:
every step may raise; `peakLocalMax` reports how many local-maximum
coordinates `skimage.feature.peak_local_max` found, and `countRegions`
reports `len(np.unique(labels)) - 1`, the number of distinct non-background
watershed labels. -/
structure SepEnv where
  rasterize : Except String Unit
  distanceTransform : Except String Unit
  peakLocalMax : Except String ℕ
  labelMarkers : Except String Unit
  watershedFill : Except String Unit
  countRegions : Except String ℕ

/-- The body of the `try:` block in `_separate_overlapped`: the steps run in
sequence, any raise aborts to the handler, zero peaks short-circuits to 0,
and on full success the result is `max(0, num_separated - num_overlapped)`. -/
def separateBody (numOverlapped : ℕ) (e : SepEnv) : Except String ℤ :=
  match e.rasterize with
  | Except.error msg => Except.error msg
  | Except.ok _ =>
    match e.distanceTransform with
    | Except.error msg => Except.error msg
    | Except.ok _ =>
      match e.peakLocalMax with
      | Except.error msg => Except.error msg
      | Except.ok coords =>
        if coords = 0 then Except.ok 0
        else
          match e.labelMarkers with
          | Except.error msg => Except.error msg
          | Except.ok _ =>
            match e.watershedFill with
            | Except.error msg => Except.error msg
            | Except.ok _ =>
              match e.countRegions with
              | Except.error msg => Except.error msg
              | Except.ok num_separated =>
                Except.ok (max 0 ((num_separated : ℤ) - (numOverlapped : ℤ)))

/-- `_separate_overlapped`: the body wrapped in its `except Exception`
handler, which swallows any failure and returns 0. -/
def separate_overlapped (numOverlapped : ℕ) (e : SepEnv) : ℤ :=
  match separateBody numOverlapped e with
  | Except.ok v => v
  | Except.error _ => 0

/-- The result dictionary of `count_contours`.  The early return for an
empty contour list (`inference.py` lines 111-119) omits the
`additional_separated` and `median_area` keys, so those two fields are
`Option`s, `none` modelling an absent key. -/
structure CountResult where
  total_count : ℤ
  individual_count : ℤ
  overlapped_count : ℤ
  additional_separated : Option ℤ
  partial_count : ℤ
  artifacts_count : ℤ
  contours : List ℚ
  median_area : Option ℚ
  deriving DecidableEq, Repr

/-- `count_contours` (`inference.py` lines 89-160) over the list of contour
areas: empty list short-circuits to the all-zero record; otherwise the
areas are classified against the median, the watershed separator runs
exactly when some contour was tagged Overlapped, and the tally is
`individual + additional + partial` with
`individual = len(contours) - artifacts - overlapped`. -/
def count_contours (areas : List ℚ) (e : SepEnv) : CountResult :=
  if areas.length = 0 then
    { total_count := 0, individual_count := 0, overlapped_count := 0,
      additional_separated := none, partial_count := 0, artifacts_count := 0,
      contours := areas, median_area := none }
  else
    let median_area := median areas
    let c := classCounts median_area areas
    let additional_count : ℤ :=
      if c.overlapped ≠ 0 then separate_overlapped c.overlapped e else 0
    let individual : ℤ := (areas.length : ℤ) - (c.artifacts : ℤ) - (c.overlapped : ℤ)
    { total_count := individual + additional_count + (c.partial_cnt : ℤ),
      individual_count := individual,
      overlapped_count := (c.overlapped : ℤ),
      additional_separated := some additional_count,
      partial_count := (c.partial_cnt : ℤ),
      artifacts_count := (c.artifacts : ℤ),
      contours := areas,
      median_area := some median_area }

/-- The value of the `overlapped` accumulator for a given area list: how
many contours the loop tags Overlapped. -/
def overlappedCount (areas : List ℚ) : ℕ := (classCounts (median areas) areas).overlapped

/-- `_calculate_confidence` (`inference.py` lines 276-301): 0.0 on a zero
total, otherwise the artifact- and overlap-penalized product clamped into
`[0, 1]`.  The redundant `if total > 0` guard of the source is kept. -/
def calculate_confidence (r : CountResult) : ℚ :=
  if r.total_count = 0 then 0
  else
    let artifact_ratio : ℚ :=
      (r.artifacts_count : ℚ) / ((r.total_count : ℚ) + (r.artifacts_count : ℚ))
    let confidence1 : ℚ := 1 - artifact_ratio * 0.5
    let overlap_ratio : ℚ :=
      if 0 < r.total_count then (r.overlapped_count : ℚ) / (r.total_count : ℚ) else 0
    max 0 (min 1 (confidence1 * (1 - overlap_ratio * 0.3)))

/-- A PIL image, abstracted to its dimensions; pixel content plays no role
in the dimension-handling claims. -/
structure PILImage where
  width : ℕ
  height : ℕ
  deriving DecidableEq, Repr

/-- `PIL.Image.resize`: the output has exactly the requested dimensions,
whatever the input dimensions were. -/
def resizeImage (image : PILImage) (size : ℕ × ℕ) : PILImage :=
  { width := size.1, height := size.2 }

/-- `preprocess_image` (`inference.py` lines 49-66): it unconditionally
calls `image.resize(self.img_size)`; there is no dimension check and no
error path.  Normalization by 255 and the batch dimension act on pixel
content only and are not represented. -/
def preprocess_image (img_size : ℕ × ℕ) (image : PILImage) : PILImage :=
  resizeImage image img_size

/-- Modelled from the spec: the input-validation behaviour that §6 and §7 of
the spec claim for the core — a dimension mismatch raises a
`ValidationError` surfaced to the caller.  Stated only to be compared with
`preprocess_image`, which the code actually implements. -/
def preprocess_image_validating (img_size : ℕ × ℕ) (image : PILImage) :
    Except String PILImage :=
  if (image.width, image.height) = img_size then Except.ok image
  else Except.error "ValidationError"

/-- An environment in which every external step succeeds. -/
def okEnv : SepEnv :=
  ⟨Except.ok (), Except.ok (), Except.ok 3, Except.ok (), Except.ok (), Except.ok 5⟩

/-- An environment whose rasterization step raises. -/
def badEnv : SepEnv :=
  ⟨Except.error "boom", Except.ok (), Except.ok 3, Except.ok (), Except.ok (), Except.ok 5⟩

/-- An environment in which `peak_local_max` finds no peaks. -/
def zeroPeakEnv : SepEnv :=
  ⟨Except.ok (), Except.ok (), Except.ok 0, Except.ok (), Except.ok (), Except.ok 5⟩

/-- An environment in which the watershed succeeds with 5 peaks and 7
distinct non-background labels. -/
def fullEnv : SepEnv :=
  ⟨Except.ok (), Except.ok (), Except.ok 5, Except.ok (), Except.ok (), Except.ok 7⟩

/-! ## Helper lemmas -/

/-- Each contour lands in at most one of the Artifact and Overlapped
buckets, so their cardinalities sum to at most the number of contours. -/
lemma classCounts_le (m : ℚ) (l : List ℚ) :
    (classCounts m l).artifacts + (classCounts m l).overlapped ≤ l.length := by
  induction l with
  | nil => simp [classCounts]
  | cons a t ih =>
    rcases h : classifyArea m a with _ | tag
    · simp only [classCounts, h, List.length_cons]
      omega
    · rcases tag <;> simp only [classCounts, h, List.length_cons] <;> omega

/-- The three possible outcomes of `separateBody`: early return 0 on no
peaks, the excess-region formula on success, or an exception. -/
lemma separateBody_cases (n : ℕ) (e : SepEnv) :
    separateBody n e = Except.ok 0
    ∨ (∃ s : ℕ, separateBody n e = Except.ok (max 0 ((s : ℤ) - (n : ℤ))))
    ∨ (∃ msg, separateBody n e = Except.error msg) := by
  obtain ⟨r, d, p, lm, w, c⟩ := e
  rcases r with m | u
  · exact Or.inr (Or.inr ⟨m, rfl⟩)
  rcases d with m | u
  · exact Or.inr (Or.inr ⟨m, rfl⟩)
  rcases p with m | coords
  · exact Or.inr (Or.inr ⟨m, rfl⟩)
  by_cases hc : coords = 0
  · left
    simp [separateBody, hc]
  rcases lm with m | u
  · exact Or.inr (Or.inr ⟨m, by simp [separateBody, hc]⟩)
  rcases w with m | u
  · exact Or.inr (Or.inr ⟨m, by simp [separateBody, hc]⟩)
  rcases c with m | s
  · exact Or.inr (Or.inr ⟨m, by simp [separateBody, hc]⟩)
  · exact Or.inr (Or.inl ⟨s, by simp [separateBody, hc]⟩)

/-- `_separate_overlapped` never returns a negative count. -/
lemma separate_overlapped_nonneg (n : ℕ) (e : SepEnv) : 0 ≤ separate_overlapped n e := by
  rcases separateBody_cases n e with h | ⟨s, h⟩ | ⟨msg, h⟩ <;>
    simp [separate_overlapped, h]

/-- Unfolding of `count_contours` on a non-empty contour list. -/
lemma count_contours_of_ne_nil (areas : List ℚ) (e : SepEnv) (h : areas ≠ []) :
    count_contours areas e =
      { total_count := ((areas.length : ℤ) - ((classCounts (median areas) areas).artifacts : ℤ)
            - ((classCounts (median areas) areas).overlapped : ℤ))
          + (if (classCounts (median areas) areas).overlapped ≠ 0
              then separate_overlapped (classCounts (median areas) areas).overlapped e else 0)
          + ((classCounts (median areas) areas).partial_cnt : ℤ),
        individual_count := (areas.length : ℤ)
          - ((classCounts (median areas) areas).artifacts : ℤ)
          - ((classCounts (median areas) areas).overlapped : ℤ),
        overlapped_count := ((classCounts (median areas) areas).overlapped : ℤ),
        additional_separated := some (if (classCounts (median areas) areas).overlapped ≠ 0
          then separate_overlapped (classCounts (median areas) areas).overlapped e else 0),
        partial_count := ((classCounts (median areas) areas).partial_cnt : ℤ),
        artifacts_count := ((classCounts (median areas) areas).artifacts : ℤ),
        contours := areas,
        median_area := some (median areas) } := by
  have hlen : ¬ areas.length = 0 := by simpa using h
  rw [count_contours, if_neg hlen]

/-- The `additional_count` value of a non-empty run is nonnegative. -/
lemma additional_if_nonneg (k : ℕ) (e : SepEnv) :
    0 ≤ (if k ≠ 0 then separate_overlapped k e else 0) := by
  split
  · exact separate_overlapped_nonneg _ _
  · exact le_refl 0

/-- All count fields of a `count_contours` result are nonnegative. -/
lemma count_fields_nonneg (areas : List ℚ) (e : SepEnv) :
    0 ≤ (count_contours areas e).artifacts_count ∧
    0 ≤ (count_contours areas e).partial_count ∧
    0 ≤ (count_contours areas e).overlapped_count ∧
    0 ≤ (count_contours areas e).individual_count ∧
    0 ≤ (count_contours areas e).additional_separated.getD 0 ∧
    0 ≤ (count_contours areas e).total_count := by
  rcases eq_or_ne areas [] with h | h
  · subst h
    simp [count_contours]
  · rw [count_contours_of_ne_nil areas e h]
    have hb := classCounts_le (median areas) areas
    have hsep := additional_if_nonneg (classCounts (median areas) areas).overlapped e
    dsimp only
    refine ⟨?_, ?_, ?_, ?_, ?_, ?_⟩ <;> (try simp only [Option.getD_some]) <;> omega

/-- `getD` with default 0 of a list of nonnegative values is nonnegative. -/
lemma getD_nonneg {l : List ℚ} (i : ℕ) (h : ∀ a ∈ l, 0 ≤ a) : 0 ≤ l.getD i 0 := by
  rcases Nat.lt_or_ge i l.length with hi | hi
  · rw [List.getD_eq_getElem?_getD, List.getElem?_eq_getElem hi, Option.getD_some]
    exact h _ (List.getElem_mem hi)
  · rw [List.getD_eq_getElem?_getD, List.getElem?_eq_none hi, Option.getD_none]

/-- `getD` with default 0 of an all-zero list is 0. -/
lemma getD_eq_zero {l : List ℚ} (i : ℕ) (h : ∀ a ∈ l, a = 0) : l.getD i 0 = 0 := by
  rcases Nat.lt_or_ge i l.length with hi | hi
  · rw [List.getD_eq_getElem?_getD, List.getElem?_eq_getElem hi, Option.getD_some]
    exact h _ (List.getElem_mem hi)
  · rw [List.getD_eq_getElem?_getD, List.getElem?_eq_none hi, Option.getD_none]

/-- The median of a list of nonnegative areas is nonnegative. -/
lemma median_nonneg {l : List ℚ} (h : ∀ a ∈ l, 0 ≤ a) : 0 ≤ median l := by
  have h' : ∀ a ∈ sortAreas l, 0 ≤ a := fun a ha =>
    h a ((List.mem_insertionSort _).mp ha)
  unfold median
  split
  · exact getD_nonneg _ h'
  · have h1 := getD_nonneg (l := sortAreas l) (l.length / 2 - 1) h'
    have h2 := getD_nonneg (l := sortAreas l) (l.length / 2) h'
    have : (0 : ℚ) ≤ 2 := by norm_num
    exact div_nonneg (add_nonneg h1 h2) this

/-- The median of an all-zero list is 0. -/
lemma median_eq_zero {l : List ℚ} (h : ∀ a ∈ l, a = 0) : median l = 0 := by
  have h' : ∀ a ∈ sortAreas l, a = 0 := fun a ha =>
    h a ((List.mem_insertionSort _).mp ha)
  unfold median
  split
  · exact getD_eq_zero _ h'
  · rw [getD_eq_zero _ h', getD_eq_zero _ h']
    norm_num

/-- Sorting commutes with scaling every area by a positive constant. -/
lemma sortAreas_map_mul {c : ℚ} (hc : 0 < c) (l : List ℚ) :
    sortAreas (l.map fun a => c * a) = (sortAreas l).map fun a => c * a := by
  unfold sortAreas
  exact (List.map_insertionSort (· ≤ ·) (· ≤ ·) (fun a => c * a) l
    (fun a _ b _ => (mul_le_mul_left hc).symm)).symm

/-- `getD` with default 0 commutes with scaling by a constant. -/
lemma getD_map_mul (c : ℚ) (l : List ℚ) (i : ℕ) :
    (l.map fun a => c * a).getD i 0 = c * l.getD i 0 := by
  rcases Nat.lt_or_ge i l.length with hi | hi
  · have hi' : i < (l.map fun a => c * a).length := by simpa using hi
    rw [List.getD_eq_getElem?_getD, List.getElem?_eq_getElem hi',
      List.getD_eq_getElem?_getD, List.getElem?_eq_getElem hi, Option.getD_some,
      Option.getD_some, List.getElem_map]
  · have hi' : (l.map fun a => c * a).length ≤ i := by simpa using hi
    rw [List.getD_eq_getElem?_getD, List.getElem?_eq_none hi',
      List.getD_eq_getElem?_getD, List.getElem?_eq_none hi]
    simp

/-- The median scales with the areas: classification's normalization scale
is itself scale-equivariant. -/
lemma median_map_mul {c : ℚ} (hc : 0 < c) (l : List ℚ) :
    median (l.map fun a => c * a) = c * median l := by
  unfold median
  rw [sortAreas_map_mul hc, List.length_map]
  split
  · exact getD_map_mul c (sortAreas l) _
  · rw [getD_map_mul c (sortAreas l), getD_map_mul c (sortAreas l)]
    ring

/-- Classification is invariant under scaling both the median and the area
by the same positive constant. -/
lemma classifyArea_mul {c : ℚ} (hc : 0 < c) (m a : ℚ) :
    classifyArea (c * m) (c * a) = classifyArea m a := by
  unfold classifyArea
  have h1 : (0.2 : ℚ) * (c * m) = c * (0.2 * m) := by ring
  have h2 : (0.5 : ℚ) * (c * m) = c * (0.5 * m) := by ring
  have h3 : (1.0 : ℚ) * (c * m) = c * (1.0 * m) := by ring
  simp only [h1, h2, h3, gt_iff_lt, mul_lt_mul_left hc, mul_le_mul_left hc]

/-- The whole classification tally is invariant under uniform positive
scaling of the areas, provided the median scales along. -/
lemma classCounts_map_mul {c : ℚ} (hc : 0 < c) (m : ℚ) (l : List ℚ) :
    classCounts (c * m) (l.map fun a => c * a) = classCounts m l := by
  induction l with
  | nil => simp [classCounts]
  | cons a t ih =>
    simp only [List.map_cons, classCounts, classifyArea_mul hc, ih]

/-- With median 0, an all-zero contour list leaves every accumulator at 0:
no area satisfies `a < 0`, `0 ≤ a < 0` or `a > 0`. -/
lemma classCounts_all_zero {l : List ℚ} (h : ∀ a ∈ l, a = 0) :
    classCounts 0 l = ⟨0, 0, 0⟩ := by
  induction l with
  | nil => rfl
  | cons a t ih =>
    have ha : a = 0 := h a (by simp)
    have ht : ∀ x ∈ t, x = 0 := fun x hx => h x (List.mem_cons_of_mem _ hx)
    have hca : classifyArea 0 a = none := by
      rw [ha]
      decide
    simp only [classCounts, hca, ih ht]

/-! ## Claim theorems -/

/-- C1: for every input mask (modelled by its extracted contour-area list)
and every separator run, the result of `count_contours` satisfies
`total_count = (num_contours - artifacts_count - overlapped_count) +
partial_count + additional_separated` (the `additional_separated` key,
absent from the empty-mask early return, read as 0), and each of the
individual complement, `partial_count`, `artifacts_count`,
`overlapped_count`, `additional_separated` and `total_count` is
nonnegative. -/
theorem count_contours_total_invariant (areas : List ℚ) (e : SepEnv) :
    ((count_contours areas e).total_count =
      ((areas.length : ℤ) - (count_contours areas e).artifacts_count
          - (count_contours areas e).overlapped_count)
        + (count_contours areas e).partial_count
        + (count_contours areas e).additional_separated.getD 0)
    ∧ 0 ≤ (areas.length : ℤ) - (count_contours areas e).artifacts_count
        - (count_contours areas e).overlapped_count
    ∧ 0 ≤ (count_contours areas e).partial_count
    ∧ 0 ≤ (count_contours areas e).artifacts_count
    ∧ 0 ≤ (count_contours areas e).overlapped_count
    ∧ 0 ≤ (count_contours areas e).additional_separated.getD 0
    ∧ 0 ≤ (count_contours areas e).total_count := by
  obtain ⟨ha, hp, ho, hi, had, ht⟩ := count_fields_nonneg areas e
  have heq : (count_contours areas e).individual_count =
      (areas.length : ℤ) - (count_contours areas e).artifacts_count
        - (count_contours areas e).overlapped_count := by
    rcases eq_or_ne areas [] with h | h
    · subst h
      simp [count_contours]
    · rw [count_contours_of_ne_nil areas e h]
  have htot : (count_contours areas e).total_count =
      (count_contours areas e).individual_count
        + (count_contours areas e).additional_separated.getD 0
        + (count_contours areas e).partial_count := by
    rcases eq_or_ne areas [] with h | h
    · subst h
      simp [count_contours]
    · rw [count_contours_of_ne_nil areas e h]
      simp only [Option.getD_some]
  exact ⟨by omega, by omega, hp, ha, ho, had, ht⟩

/-- C7 (counterexample): a 100×100 input against a configured 512×512 size.
The spec-modelled validating front end rejects it, but the code's
`preprocess_image` accepts it and silently resizes it to 512×512 — no
validation error exists in the code. -/
theorem preprocess_image_counterexample :
    preprocess_image_validating (512, 512) ⟨100, 100⟩ = Except.error "ValidationError"
    ∧ preprocess_image (512, 512) ⟨100, 100⟩ = ⟨512, 512⟩
    ∧ (100, 100) ≠ (512, 512) := by
  refine ⟨rfl, rfl, by decide⟩

/-- C7 (amended): `preprocess_image` performs no dimension validation: for
every configured size and every input image — matching or not — it
succeeds and returns an image silently resized to the configured size. -/
theorem preprocess_image_always_resizes (img_size : ℕ × ℕ) (image : PILImage) :
    preprocess_image img_size image =
      { width := img_size.1, height := img_size.2 } :=
  rfl

/-- C9 (counterexample): on a mask with zero contours the result dictionary
of `count_contours` has no `additional_separated` key at all (modelled as
`none`), so the claim that a zero-contour mask yields
`additional_separated = 0` fails. -/
theorem count_contours_empty_counterexample :
    ¬ (count_contours [] okEnv).additional_separated = some 0 := by
  decide

/-- C9 (amended): zero contours yield the early-return record — the five
count fields present and 0, the `additional_separated` and `median_area`
keys absent — the confidence computed from it is 0.0, and no error is
raised (`count_contours` is total on the empty list). -/
theorem count_contours_empty (e : SepEnv) :
    count_contours [] e =
      { total_count := 0, individual_count := 0, overlapped_count := 0,
        additional_separated := none, partial_count := 0, artifacts_count := 0,
        contours := [], median_area := none }
    ∧ calculate_confidence (count_contours [] e) = 0 :=
  ⟨rfl, rfl⟩

/-- C10: on a non-empty contour list whose areas are all 0 the median is 0,
no contour satisfies the Artifact (`a < 0`), Partial (`0 ≤ a < 0`) or
Overlapped (`a > 0`) condition, so all three tagged counts are 0,
`additional_separated = 0` (separator short-circuited), and
`total_count = individual_count = num_contours`. -/
theorem count_contours_all_zero (areas : List ℚ) (e : SepEnv)
    (hne : areas ≠ []) (hz : ∀ a ∈ areas, a = 0) :
    (count_contours areas e).artifacts_count = 0
    ∧ (count_contours areas e).partial_count = 0
    ∧ (count_contours areas e).overlapped_count = 0
    ∧ (count_contours areas e).additional_separated = some 0
    ∧ (count_contours areas e).total_count = (areas.length : ℤ)
    ∧ (count_contours areas e).individual_count = (areas.length : ℤ) := by
  have hm : median areas = 0 := median_eq_zero hz
  rw [count_contours_of_ne_nil areas e hne, hm, classCounts_all_zero hz]
  simp

/-- Witness for C10 at the concrete all-zero list `[0, 0, 0]`. -/
theorem count_contours_all_zero_witness :
    (count_contours [(0 : ℚ), 0, 0] okEnv).additional_separated = some 0 :=
  (count_contours_all_zero [(0 : ℚ), 0, 0] okEnv (by decide) (by decide)).2.2.2.1

/-- C2: against a nonnegative-area contour list with median `m`, the chain
tags a contour of area `a` Artifact exactly when `a < 0.2·m`, Partial
exactly when `0.2·m ≤ a < 0.5·m`, Overlapped exactly when `a > m`, and
leaves it untagged exactly when `0.5·m ≤ a ≤ m`; being produced by a single
function, the three buckets are mutually disjoint, and the Individual count
is only ever the arithmetic complement
`num_contours - artifacts - overlapped`. -/
theorem classification_thresholds (areas : List ℚ) (e : SepEnv) (a : ℚ)
    (hne : areas ≠ []) (h0 : ∀ x ∈ areas, 0 ≤ x) :
    (classifyArea (median areas) a = some Tag.Artifact ↔ a < 0.2 * median areas)
    ∧ (classifyArea (median areas) a = some Tag.Partial ↔
        0.2 * median areas ≤ a ∧ a < 0.5 * median areas)
    ∧ (classifyArea (median areas) a = some Tag.Overlapped ↔ median areas < a)
    ∧ (classifyArea (median areas) a = none ↔
        0.5 * median areas ≤ a ∧ a ≤ median areas)
    ∧ (count_contours areas e).individual_count =
        (areas.length : ℤ) - (count_contours areas e).artifacts_count
          - (count_contours areas e).overlapped_count := by
  have hm : 0 ≤ median areas := median_nonneg h0
  refine ⟨?_, ?_, ?_, ?_, ?_⟩
  · unfold classifyArea
    split_ifs with h1 h2 h3
    · simpa using h1
    · simp
      exact h2.1
    · simp
      linarith [not_lt.mp h1]
    · simp
      linarith [not_lt.mp h1]
  · unfold classifyArea
    split_ifs with h1 h2 h3
    · simp
      intro h'
      linarith
    · simpa using h2
    · simp
      intro h'
      linarith
    · push_neg at h2
      simp
      intro h'
      exact h2 h'
  · unfold classifyArea
    split_ifs with h1 h2 h3
    · simp
      linarith
    · simp
      linarith [h2.2]
    · simp
      linarith
    · simp
      linarith [not_lt.mp h3]
  · unfold classifyArea
    split_ifs with h1 h2 h3
    · simp
      intro h'
      linarith
    · simp
      intro h'
      linarith [h2.2]
    · simp
      intro h'
      linarith
    · push_neg at h2
      simp
      exact ⟨h2 (not_lt.mp h1), by linarith [not_lt.mp h3]⟩
  · rcases eq_or_ne areas [] with h | h
    · subst h
      simp [count_contours]
    · rw [count_contours_of_ne_nil areas e h]

/-- Witness for C2: in the list `[1, 2, 3]` (median 2) the area `0.3` is
tagged Artifact exactly because `0.3 < 0.2·2`. -/
theorem classification_thresholds_witness :
    classifyArea (median [(1 : ℚ), 2, 3]) 0.3 = some Tag.Artifact ↔
      (0.3 : ℚ) < 0.2 * median [(1 : ℚ), 2, 3] :=
  (classification_thresholds [(1 : ℚ), 2, 3] okEnv 0.3 (by decide) (by decide)).1

/-- C8: scaling every contour area by the same positive constant scales the
median along with it, so every contour receives exactly the same
classification, and the three tagged counts of `count_contours` are
unchanged. -/
theorem classification_scale_invariant (c : ℚ) (hc : 0 < c)
    (areas : List ℚ) (e : SepEnv) :
    ((areas.map fun a => c * a).map (classifyArea (median (areas.map fun a => c * a)))
      = areas.map (classifyArea (median areas)))
    ∧ (count_contours (areas.map fun a => c * a) e).artifacts_count
        = (count_contours areas e).artifacts_count
    ∧ (count_contours (areas.map fun a => c * a) e).partial_count
        = (count_contours areas e).partial_count
    ∧ (count_contours (areas.map fun a => c * a) e).overlapped_count
        = (count_contours areas e).overlapped_count := by
  have hmed := median_map_mul hc areas
  have hcc : classCounts (median (areas.map fun a => c * a)) (areas.map fun a => c * a)
      = classCounts (median areas) areas := by
    rw [hmed]
    exact classCounts_map_mul hc _ areas
  have hmap : (areas.map fun a => c * a).map
        (classifyArea (median (areas.map fun a => c * a)))
      = areas.map (classifyArea (median areas)) := by
    rw [hmed, List.map_map]
    refine List.map_congr_left fun a ha => ?_
    exact classifyArea_mul hc (median areas) a
  refine ⟨hmap, ?_, ?_, ?_⟩
  all_goals
    rcases eq_or_ne areas [] with h | h
    · subst h
      rfl
    · have h' : areas.map (fun a => c * a) ≠ [] := by simpa using h
      rw [count_contours_of_ne_nil _ e h', count_contours_of_ne_nil _ e h, hcc]

/-- Witness for C8 at scale 2 on the list `[1, 2, 3]`. -/
theorem classification_scale_invariant_witness :
    (count_contours ([(1 : ℚ), 2, 3].map fun a => 2 * a) okEnv).artifacts_count
      = (count_contours [(1 : ℚ), 2, 3] okEnv).artifacts_count :=
  (classification_scale_invariant 2 (by norm_num) [(1 : ℚ), 2, 3] okEnv).2.1

/-- C3: on every pipeline-produced `CountResult` the confidence equals 0.0
when `total_count = 0` and otherwise
`clamp((1 - 0.5·artifacts/(total+artifacts)) · (1 - 0.3·overlapped/total),
0, 1)`; and in all cases — for every `CountResult` record whatsoever — the
returned confidence lies in `[0, 1]`. -/
theorem calculate_confidence_spec (areas : List ℚ) (e : SepEnv) :
    (calculate_confidence (count_contours areas e) =
      if (count_contours areas e).total_count = 0 then 0
      else max 0 (min 1
        ((1 - 0.5 * (((count_contours areas e).artifacts_count : ℚ) /
            (((count_contours areas e).total_count : ℚ)
              + ((count_contours areas e).artifacts_count : ℚ))))
          * (1 - 0.3 * (((count_contours areas e).overlapped_count : ℚ) /
            ((count_contours areas e).total_count : ℚ))))))
    ∧ (∀ r : CountResult,
        0 ≤ calculate_confidence r ∧ calculate_confidence r ≤ 1) := by
  constructor
  · have ht := (count_fields_nonneg areas e).2.2.2.2.2
    by_cases h : (count_contours areas e).total_count = 0
    · simp [calculate_confidence, h]
    · have hpos : 0 < (count_contours areas e).total_count :=
        lt_of_le_of_ne ht (Ne.symm h)
      have harith : ∀ x y : ℚ,
          (1 - x * 0.5) * (1 - y * 0.3) = (1 - 0.5 * x) * (1 - 0.3 * y) :=
        fun x y => by ring
      simp only [calculate_confidence, h, hpos, ite_true, ite_false, if_true, if_false]
      rw [harith]
  · intro r
    unfold calculate_confidence
    by_cases h : r.total_count = 0
    · simp [h]
    · rw [if_neg h]
      exact ⟨le_max_left _ _, max_le (by norm_num) (min_le_left _ _)⟩

/-- If `peak_local_max` reports zero peaks, `_separate_overlapped` returns
0 whatever the other steps do. -/
lemma separate_overlapped_zero_peaks (n : ℕ) (e : SepEnv)
    (h : e.peakLocalMax = Except.ok 0) : separate_overlapped n e = 0 := by
  obtain ⟨r, d, p, lm, w, c⟩ := e
  dsimp only at h
  subst h
  rcases r with m | u <;> rcases d with m2 | u2 <;>
    simp [separate_overlapped, separateBody]

/-- On a fully successful run with a positive peak count,
`_separate_overlapped` returns the excess-region formula. -/
lemma separate_overlapped_success (n : ℕ) (e : SepEnv) (p s : ℕ)
    (hr : e.rasterize = Except.ok ()) (hd : e.distanceTransform = Except.ok ())
    (hp : e.peakLocalMax = Except.ok p) (hp0 : p ≠ 0)
    (hl : e.labelMarkers = Except.ok ()) (hw : e.watershedFill = Except.ok ())
    (hc : e.countRegions = Except.ok s) :
    separate_overlapped n e = max 0 ((s : ℤ) - (n : ℤ)) := by
  obtain ⟨r, d, pp, lm, w, c⟩ := e
  dsimp only at hr hd hp hl hw hc
  subst hr
  subst hd
  subst hp
  subst hl
  subst hw
  subst hc
  simp [separate_overlapped, separateBody, hp0]

/-- C4: whenever the body of the overlap-separation steps raises — at
rasterization, the distance transform, peak finding, marker labelling, the
watershed fill or region counting — the exception is caught inside
`_separate_overlapped`, which returns 0, and the `count_contours` call
completes normally with `additional_separated = 0`: no exception crosses
the pipeline boundary. -/
theorem separator_failure_caught (areas : List ℚ) (e : SepEnv) (msg : String)
    (hne : areas ≠ [])
    (h : separateBody (overlappedCount areas) e = Except.error msg) :
    separate_overlapped (overlappedCount areas) e = 0
    ∧ (count_contours areas e).additional_separated = some 0 := by
  have h0 : separate_overlapped (overlappedCount areas) e = 0 := by
    unfold separate_overlapped
    rw [h]
  refine ⟨h0, ?_⟩
  unfold overlappedCount at h0
  rw [count_contours_of_ne_nil areas e hne]
  dsimp only
  by_cases hov : (classCounts (median areas) areas).overlapped ≠ 0
  · rw [if_pos hov, h0]
  · rw [if_neg hov]

/-- Witness for C4: the list `[1, 12]` has one Overlapped contour, and an
environment whose rasterization step raises still yields
`additional_separated = 0`. -/
theorem separator_failure_caught_witness :
    separate_overlapped (overlappedCount [(1 : ℚ), 12]) badEnv = 0
    ∧ (count_contours [(1 : ℚ), 12] badEnv).additional_separated = some 0 :=
  separator_failure_caught [(1 : ℚ), 12] badEnv "boom" (by decide) rfl

/-- C5: the separator is skipped entirely (result 0, environment never
consulted) when no contour is tagged Overlapped; a successful run that
finds zero peaks yields 0; a fully successful run with `p ≠ 0` peaks and
`s` distinct non-background labels yields
`max(0, s - number_of_overlapped_contours)`; and `additional_separated`
reads as 0 whenever `overlapped_count = 0`. -/
theorem additional_separated_formula (areas : List ℚ) (e : SepEnv) :
    (overlappedCount areas = 0 →
      (count_contours areas e).additional_separated.getD 0 = 0
      ∧ ∀ f : SepEnv, count_contours areas e = count_contours areas f)
    ∧ (areas ≠ [] → e.peakLocalMax = Except.ok 0 →
      (count_contours areas e).additional_separated = some 0)
    ∧ (∀ p s : ℕ, areas ≠ [] → overlappedCount areas ≠ 0 →
      e.rasterize = Except.ok () → e.distanceTransform = Except.ok () →
      e.peakLocalMax = Except.ok p → p ≠ 0 →
      e.labelMarkers = Except.ok () → e.watershedFill = Except.ok () →
      e.countRegions = Except.ok s →
      (count_contours areas e).additional_separated =
        some (max 0 ((s : ℤ) - (overlappedCount areas : ℤ))))
    ∧ ((count_contours areas e).overlapped_count = 0 →
      (count_contours areas e).additional_separated.getD 0 = 0) := by
  refine ⟨?_, ?_, ?_, ?_⟩
  · intro hov
    unfold overlappedCount at hov
    rcases eq_or_ne areas [] with h | h
    · subst h
      exact ⟨rfl, fun f => rfl⟩
    · constructor
      · rw [count_contours_of_ne_nil areas e h]
        dsimp only
        rw [if_neg (by simpa using hov)]
        rfl
      · intro f
        rw [count_contours_of_ne_nil areas e h, count_contours_of_ne_nil areas f h]
        rw [if_neg (by simpa using hov), if_neg (by simpa using hov)]
  · intro hne hpeak
    rw [count_contours_of_ne_nil areas e hne]
    dsimp only
    by_cases hov : (classCounts (median areas) areas).overlapped ≠ 0
    · rw [if_pos hov, separate_overlapped_zero_peaks _ e hpeak]
    · rw [if_neg hov]
  · intro p s hne hov0 hr hd hp hp0 hl hw hc
    rw [count_contours_of_ne_nil areas e hne]
    dsimp only
    unfold overlappedCount at hov0 ⊢
    rw [if_pos hov0, separate_overlapped_success _ e p s hr hd hp hp0 hl hw hc]
  · intro hov
    rcases eq_or_ne areas [] with h | h
    · subst h
      rfl
    · rw [count_contours_of_ne_nil areas e h] at hov ⊢
      have hov' : (classCounts (median areas) areas).overlapped = 0 := by
        simpa using hov
      rw [if_neg (by simp [hov'])]
      rfl

/-- Witness for C5: on `[1, 1, 1, 8, 12, 12, 12, 12]` (4 Overlapped
contours) with a fully successful watershed run finding 5 peaks and 7
regions, `additional_separated = max(0, 7 - 4)`. -/
theorem additional_separated_formula_witness :
    (count_contours [(1 : ℚ), 1, 1, 8, 12, 12, 12, 12] fullEnv).additional_separated
      = some (max 0 ((7 : ℤ)
          - (overlappedCount [(1 : ℚ), 1, 1, 8, 12, 12, 12, 12] : ℤ))) :=
  (additional_separated_formula [(1 : ℚ), 1, 1, 8, 12, 12, 12, 12] fullEnv).2.2.1
    5 7 (by decide) (by decide) rfl rfl rfl (by decide) rfl rfl rfl

/-- C6 (counterexample): the mask with contour areas
`[1, 1, 1, 8, 12, 12, 12, 12]` (median 10: three Artifacts, four
Overlapped, one untagged) and a watershed run that finds no peaks gives
`total_count = 1 > 0` yet confidence exactly 0.0: the overlap penalty
`1 - 0.3·(4/1)` is negative and the clamp floors the product at 0. -/
theorem confidence_zero_counterexample :
    0 < (count_contours [(1 : ℚ), 1, 1, 8, 12, 12, 12, 12] zeroPeakEnv).total_count
    ∧ calculate_confidence
        (count_contours [(1 : ℚ), 1, 1, 8, 12, 12, 12, 12] zeroPeakEnv) = 0 := by
  constructor
  · decide
  · decide

/-- C6 (amended): for every mask, the pipeline confidence is 0.0 exactly
when `total_count = 0` or the clamp floor is reached, i.e.
`10·total_count ≤ 3·overlapped_count`; in particular it is strictly
positive whenever `total_count > 0` and `10·total_count >
3·overlapped_count`. -/
theorem confidence_zero_iff (areas : List ℚ) (e : SepEnv) :
    calculate_confidence (count_contours areas e) = 0 ↔
      ((count_contours areas e).total_count = 0
        ∨ 10 * (count_contours areas e).total_count ≤
            3 * (count_contours areas e).overlapped_count) := by
  obtain ⟨ha, hp, ho, hi, had, ht⟩ := count_fields_nonneg areas e
  by_cases h : (count_contours areas e).total_count = 0
  · simp [calculate_confidence, h]
  · have hpos : 0 < (count_contours areas e).total_count :=
      lt_of_le_of_ne ht (Ne.symm h)
    simp only [calculate_confidence, h, hpos, ite_true, ite_false, if_true, if_false]
    have htq : (0 : ℚ) < ((count_contours areas e).total_count : ℚ) := by
      exact_mod_cast hpos
    have haq : (0 : ℚ) ≤ ((count_contours areas e).artifacts_count : ℚ) := by
      exact_mod_cast ha
    have hoq : (0 : ℚ) ≤ ((count_contours areas e).overlapped_count : ℚ) := by
      exact_mod_cast ho
    have hta : (0 : ℚ) < ((count_contours areas e).total_count : ℚ)
        + ((count_contours areas e).artifacts_count : ℚ) := by linarith
    have har1 : ((count_contours areas e).artifacts_count : ℚ) /
        (((count_contours areas e).total_count : ℚ)
          + ((count_contours areas e).artifacts_count : ℚ)) < 1 :=
      (div_lt_one hta).mpr (by linarith)
    have har0 : (0 : ℚ) ≤ ((count_contours areas e).artifacts_count : ℚ) /
        (((count_contours areas e).total_count : ℚ)
          + ((count_contours areas e).artifacts_count : ℚ)) :=
      div_nonneg haq (le_of_lt hta)
    have hf1 : (0 : ℚ) < 1 - ((count_contours areas e).artifacts_count : ℚ) /
        (((count_contours areas e).total_count : ℚ)
          + ((count_contours areas e).artifacts_count : ℚ)) * 0.5 := by
      nlinarith
    have hmax : ∀ P : ℚ, max 0 (min 1 P) = 0 ↔ P ≤ 0 := by
      intro P
      constructor
      · intro hP
        by_contra hcon
        push_neg at hcon
        have h1 : (0 : ℚ) < min 1 P := lt_min (by norm_num) hcon
        have h2 : min 1 P ≤ max 0 (min 1 P) := le_max_right _ _
        rw [hP] at h2
        linarith
      · intro hP
        have hmin : min 1 P ≤ 0 := le_trans (min_le_right 1 P) hP
        exact max_eq_left hmin
    rw [hmax]
    have hPiff : (1 - ((count_contours areas e).artifacts_count : ℚ) /
          (((count_contours areas e).total_count : ℚ)
            + ((count_contours areas e).artifacts_count : ℚ)) * 0.5)
        * (1 - ((count_contours areas e).overlapped_count : ℚ) /
            ((count_contours areas e).total_count : ℚ) * 0.3) ≤ 0 ↔
        (1 - ((count_contours areas e).overlapped_count : ℚ) /
            ((count_contours areas e).total_count : ℚ) * 0.3) ≤ 0 := by
      constructor
      · intro hP
        by_contra hcon
        push_neg at hcon
        nlinarith
      · intro h2
        nlinarith
    rw [hPiff, sub_nonpos, div_mul_eq_mul_div, le_div_iff₀ htq]
    constructor
    · intro hh
      right
      have hq : (10 : ℚ) * ((count_contours areas e).total_count : ℚ)
          ≤ 3 * ((count_contours areas e).overlapped_count : ℚ) := by linarith
      exact_mod_cast hq
    · intro hh
      rcases hh with h0 | hle
      · exact h0.elim
      · have hq : (10 : ℚ) * ((count_contours areas e).total_count : ℚ)
            ≤ 3 * ((count_contours areas e).overlapped_count : ℚ) := by
          exact_mod_cast hle
        linarith

end SilkyNet
